import Mathlib

/-!
Shallow embedding of the benchmark execution and statistics engine of the
repository (src/test/runner.js: `TestRunner.runTest`, `calculateStats`,
`calculateMemoryUsage`; the per-algorithm validators of the test
configuration file; and `TestRunnerWithDatabase.runTest`).

Modelling conventions:
* JavaScript numbers are idealised as exact rationals.  The special values
  `NaN`, `Infinity`, `-Infinity` and `undefined` produced by the code are
  represented explicitly by the inductive `JsVal`, and the arithmetic,
  comparison, `Math.abs` / `Math.max` and `isNaN` operations used by the
  source are embedded with their JavaScript semantics on those values
  (`undefined` converts to `NaN` inside arithmetic).  The numeric literals
  `0.95`, `0.99`, `0.01`, `0.15`, `1e-10` of the source are idealised as the
  exact rationals they denote.
* `Math.sqrt` (used only for the `stdDev` field) is not exactly
  representable on rationals; `calculateStats` is therefore parameterised by
  an abstract square-root function `sqrtFn : JsVal → JsVal`.
* Asynchronous execution is sequential in the source (every call is
  awaited), so the trial loop is embedded as a pure recursion.  The two
  implementations under test, the clock and the memory probe are modelled as
  functions of the trial index, covering any per-trial behaviour.  A thrown
  exception is modelled by `Except String`.
* `runTest` additionally emits a trace of invocation events so that call
  counts of the wasm implementation, the js implementation and the validator
  are observable.
* Presentation-only output fields of `runTest` that no verified property
  touches (`wasmMemoryStats`, `jsMemoryStats`, `memoryDetails`) are omitted
  from the embedded result record; the fields the properties are about are
  embedded exactly.
-/

/-- JavaScript runtime values flowing through the numeric code paths:
`undefined`, `NaN`, the two infinities, and finite numbers (idealised as
exact rationals). -/
inductive JsVal where
  | undefined
  | nan
  | posInf
  | negInf
  | num (q : ℚ)
deriving DecidableEq

namespace JsVal

/-- JavaScript `ToNumber` on the values we track: `undefined` becomes `NaN`;
every other tracked value is already a number. -/
def toNum : JsVal → JsVal
  | .undefined => .nan
  | v => v

/-- JavaScript addition. -/
def jsAdd (a b : JsVal) : JsVal :=
  match a.toNum, b.toNum with
  | .nan, _ => .nan
  | _, .nan => .nan
  | .posInf, .negInf => .nan
  | .negInf, .posInf => .nan
  | .posInf, _ => .posInf
  | _, .posInf => .posInf
  | .negInf, _ => .negInf
  | _, .negInf => .negInf
  | .num x, .num y => .num (x + y)
  | .undefined, _ => .nan
  | _, .undefined => .nan

/-- JavaScript unary negation. -/
def jsNeg : JsVal → JsVal
  | .undefined => .nan
  | .nan => .nan
  | .posInf => .negInf
  | .negInf => .posInf
  | .num q => .num (-q)

/-- JavaScript subtraction. -/
def jsSub (a b : JsVal) : JsVal := jsAdd a (jsNeg b)

/-- JavaScript multiplication. -/
def jsMul (a b : JsVal) : JsVal :=
  match a.toNum, b.toNum with
  | .nan, _ => .nan
  | _, .nan => .nan
  | .posInf, .posInf => .posInf
  | .posInf, .negInf => .negInf
  | .negInf, .posInf => .negInf
  | .negInf, .negInf => .posInf
  | .posInf, .num y => if y = 0 then .nan else if 0 < y then .posInf else .negInf
  | .num x, .posInf => if x = 0 then .nan else if 0 < x then .posInf else .negInf
  | .negInf, .num y => if y = 0 then .nan else if 0 < y then .negInf else .posInf
  | .num x, .negInf => if x = 0 then .nan else if 0 < x then .negInf else .posInf
  | .num x, .num y => .num (x * y)
  | .undefined, _ => .nan
  | _, .undefined => .nan

/-- JavaScript division (signed zeros are not modelled: `0` is `+0`). -/
def jsDiv (a b : JsVal) : JsVal :=
  match a.toNum, b.toNum with
  | .nan, _ => .nan
  | _, .nan => .nan
  | .posInf, .posInf => .nan
  | .posInf, .negInf => .nan
  | .negInf, .posInf => .nan
  | .negInf, .negInf => .nan
  | .posInf, .num y => if 0 ≤ y then .posInf else .negInf
  | .negInf, .num y => if 0 ≤ y then .negInf else .posInf
  | .num _, .posInf => .num 0
  | .num _, .negInf => .num 0
  | .num x, .num y =>
      if y = 0 then (if x = 0 then .nan else if 0 < x then .posInf else .negInf)
      else .num (x / y)
  | .undefined, _ => .nan
  | _, .undefined => .nan

/-- JavaScript `Math.abs`. -/
def jsAbs : JsVal → JsVal
  | .undefined => .nan
  | .nan => .nan
  | .posInf => .posInf
  | .negInf => .posInf
  | .num q => .num |q|

/-- JavaScript `Math.max` of two arguments (`NaN` if either is `NaN`). -/
def jsMax (a b : JsVal) : JsVal :=
  match a.toNum, b.toNum with
  | .nan, _ => .nan
  | _, .nan => .nan
  | .posInf, _ => .posInf
  | _, .posInf => .posInf
  | .negInf, v => v
  | v, .negInf => v
  | .num x, .num y => .num (max x y)
  | .undefined, _ => .nan
  | _, .undefined => .nan

/-- JavaScript strict `<` comparison, as a boolean (`false` whenever an
operand is `NaN`). -/
def jsLtB (a b : JsVal) : Bool :=
  match a.toNum, b.toNum with
  | .nan, _ => false
  | _, .nan => false
  | .posInf, _ => false
  | _, .posInf => true
  | .negInf, .negInf => false
  | .negInf, _ => true
  | _, .negInf => false
  | .num x, .num y => decide (x < y)
  | .undefined, _ => false
  | _, .undefined => false

/-- JavaScript global `isNaN` (converts with `ToNumber` first, so
`isNaN(undefined)` is `true`). -/
def isNaNb (v : JsVal) : Bool :=
  match v.toNum with
  | .nan => true
  | _ => false

end JsVal

open JsVal

/-- A memory snapshot as produced by `TestRunner.measureMemory`
(src/test/runner.js): either the counters of `process.memoryUsage()` or the
sentinel object `{ unavailable: true }` when no memory API exists.  The
source field `external` is named `ext` here. -/
inductive MemorySnapshot where
  | unavailable
  | available (heapUsed heapTotal ext rss : ℚ)
deriving DecidableEq

/-- The value returned by `TestRunner.calculateMemoryUsage`: either the
sentinel `{ unavailable: true }` or the field-by-field differences. -/
inductive MemoryUsage where
  | unavailable
  | delta (heapUsed heapTotal ext rss : ℚ)
deriving DecidableEq

/-- Embedding of `TestRunner.calculateMemoryUsage` (src/test/runner.js
lines 185-196). -/
def calculateMemoryUsage (before after : MemorySnapshot) : MemoryUsage :=
  match before, after with
  | .unavailable, _ => .unavailable
  | _, .unavailable => .unavailable
  | .available h1 t1 e1 r1, .available h2 t2 e2 r2 =>
      .delta (h2 - h1) (t2 - t1) (e2 - e1) (r2 - r1)

/-- Embedding of the JavaScript array indexing `l[i]` used by
`calculateStats` on the sorted copy: out-of-range access yields
`undefined`. -/
def jsIdx (l : List ℚ) (i : ℕ) : JsVal :=
  match l[i]? with
  | some q => .num q
  | none => .undefined

/-- Embedding of `[...times].sort((a, b) => a - b)`: the ascending numeric
sort of a copy of the input. -/
def sortTimes (l : List ℚ) : List ℚ := l.insertionSort (· ≤ ·)

/-- The percentile index `Math.floor(length * p)` used by `calculateStats`
for `p95` and `p99`. -/
def pctIdx (n : ℕ) (p : ℚ) : ℕ := (⌊(n : ℚ) * p⌋).toNat

/-- The seven statistics returned by `TestRunner.calculateStats`. -/
structure Stats where
  min : JsVal
  max : JsVal
  mean : JsVal
  median : JsVal
  stdDev : JsVal
  p95 : JsVal
  p99 : JsVal
deriving DecidableEq

/-- Embedding of `TestRunner.calculateStats` (src/test/runner.js lines
203-227).  `sqrtFn` abstracts `Math.sqrt`, used only for `stdDev`. -/
def calculateStats (sqrtFn : JsVal → JsVal) (times : List ℚ) : Stats :=
  let sum : ℚ := times.sum
  let mean : JsVal := jsDiv (.num sum) (.num (times.length : ℚ))
  let squareDiffs : List JsVal :=
    times.map (fun value => let diff := jsSub (.num value) mean; jsMul diff diff)
  let avgSquareDiff : JsVal :=
    jsDiv (squareDiffs.foldl jsAdd (.num 0)) (.num (times.length : ℚ))
  let stdDev : JsVal := sqrtFn avgSquareDiff
  let sorted : List ℚ := sortTimes times
  { min := jsIdx sorted 0
    max := jsIdx sorted (sorted.length - 1)
    mean := mean
    median := jsIdx sorted (sorted.length / 2)
    stdDev := stdDev
    p95 := jsIdx sorted (pctIdx sorted.length (95 / 100))
    p99 := jsIdx sorted (pctIdx sorted.length (99 / 100)) }

/-- The discrepancy messages pushed by the validators and by
`TestRunnerWithDatabase.runTest`, abstracted from their string contents. -/
inductive Discrepancy where
  | bothNullish
  | notArrays
  | lengthMismatch (wl jl : ℕ)
  | nanAt (i : ℕ)
  | mismatchAt (i : ℕ)
  | testExecutionFailed (msg : String)
deriving DecidableEq

/-- A validator's return value: `{ success, discrepancies }`. -/
structure ValidationOutcome where
  success : Bool
  discrepancies : List Discrepancy
deriving DecidableEq

/-- A value handed to a per-algorithm validator: `null`/`undefined`, some
other non-array value (with its truthiness), or an array of numbers. -/
inductive JsRes where
  | nullish
  | nonArray (truthy : Bool)
  | arr (xs : List JsVal)
deriving DecidableEq

/-- JavaScript falsiness of a validator argument (`!wasmResult`). -/
def falsyRes : JsRes → Bool
  | .nullish => true
  | .nonArray t => !t
  | .arr _ => false

/-- JavaScript element access `xs[i]` on an array of numbers. -/
def jsAt (l : List JsVal) (i : ℕ) : JsVal :=
  match l[i]? with
  | some v => v
  | none => .undefined

/-- The element-comparison loop shared by the fft and gradient validators of
the test configuration file: for each index `i` below the wasm array's
length, push a NaN discrepancy when either element is NaN, otherwise push a
mismatch discrepancy when the relative difference
`|w - j| / max(|w|, |j|, 1e-10)` exceeds the tolerance.  `r` counts the
remaining indices. -/
def valLoop (tol : ℚ) (ws js : List JsVal) : ℕ → ℕ → List Discrepancy
  | _, 0 => []
  | i, r + 1 =>
    let w := jsAt ws i
    let j := jsAt js i
    let rest := valLoop tol ws js (i + 1) r
    if isNaNb w || isNaNb j then .nanAt i :: rest
    else
      let den := jsMax (jsAbs w) (jsMax (jsAbs j) (.num (1 / 10000000000)))
      let diff := jsDiv (jsAbs (jsSub w j)) den
      if jsLtB (.num tol) diff then .mismatchAt i :: rest else rest

/-- The full, untruncated discrepancy list computed by the fft/gradient
validator bodies before the final `slice`. -/
def fullDiscrepancies (tol : ℚ) (w j : JsRes) : List Discrepancy :=
  if falsyRes w || falsyRes j then [.bothNullish]
  else
    match w, j with
    | .arr ws, .arr js =>
        if ws.length ≠ js.length then [.lengthMismatch ws.length js.length]
        else valLoop tol ws js 0 ws.length
    | _, _ => [.notArrays]

/-- Embedding of the fft and gradient validators of the test configuration
file (they differ only in the tolerance): reject nullish or non-array
inputs, reject a length mismatch, otherwise compare element-wise and return
`{ success: discrepancies.length === 0, discrepancies: discrepancies.slice(0, 3) }`. -/
def runValidator (tol : ℚ) (w j : JsRes) : ValidationOutcome :=
  if falsyRes w || falsyRes j then
    { success := false, discrepancies := [.bothNullish] }
  else
    match w, j with
    | .arr ws, .arr js =>
        if ws.length ≠ js.length then
          { success := false, discrepancies := [.lengthMismatch ws.length js.length] }
        else
          let discrepancies := valLoop tol ws js 0 ws.length
          { success := discrepancies.length == 0, discrepancies := discrepancies.take 3 }
    | _, _ => { success := false, discrepancies := [.notArrays] }

/-- `TEST_CONFIGS.fft.validator`: tolerance `0.01`. -/
def fftValidator : JsRes → JsRes → ValidationOutcome := runValidator (1 / 100)

/-- `TEST_CONFIGS.gradient.validator`: tolerance `0.15`. -/
def gradientValidator : JsRes → JsRes → ValidationOutcome := runValidator (15 / 100)

/-- Invocation events emitted while `runTest` executes: a call to the wasm
implementation, a call to the js implementation, or a call to the validator
together with the two outputs it was given.  `α` is the (opaque) output type
of the implementations under test. -/
inductive Event (α : Type) where
  | wasmCall (i : ℕ)
  | jsCall (i : ℕ)
  | validatorCall (i : ℕ) (wasmRes jsRes : α)
deriving DecidableEq

/-- The environment a `runTest` call runs in: the two implementations under
test (as functions of the trial index, `this.wasm.runAlgorithm(testData)`
and `this.js.runAlgorithm(testData)`), the elapsed wall-clock time of each
call, the memory snapshots around each call, and the abstract `Math.sqrt`
for the statistics. -/
structure RunParams (α : Type) where
  algorithm : String
  algoType : String
  size : String
  wasmRun : ℕ → α
  jsRun : ℕ → α
  wasmTime : ℕ → ℚ
  jsTime : ℕ → ℚ
  wasmMemBefore : ℕ → MemorySnapshot
  wasmMemAfter : ℕ → MemorySnapshot
  jsMemBefore : ℕ → MemorySnapshot
  jsMemAfter : ℕ → MemorySnapshot
  sqrtFn : JsVal → JsVal

/-- A validator as received by `runTest`: it may throw (`Except.error`),
return `undefined` (`Except.ok none`), or return an outcome object. -/
def RValidator (α : Type) : Type := α → α → Except String (Option ValidationOutcome)

/-- The embedded result record built by `runTest` (the `metrics` object):
the fields the verified properties are about. -/
structure Metrics where
  algorithm : String
  algoType : String
  size : String
  wasmTimes : List ℚ
  jsTimes : List ℚ
  wasmMemory : List MemoryUsage
  jsMemory : List MemoryUsage
  validationResults : ValidationOutcome
  wasmStats : Stats
  jsStats : Stats
  speedup : JsVal
deriving DecidableEq

/-- The mutable accumulator state of the trial loop of `runTest`, together
with the emitted event trace. -/
structure LoopState (α : Type) where
  trace : List (Event α)
  wasmTimes : List ℚ
  jsTimes : List ℚ
  wasmMemory : List MemoryUsage
  jsMemory : List MemoryUsage
  validationResults : ValidationOutcome
deriving DecidableEq

/-- The loop state before the first iteration (`metrics` as initialised at
the top of `runTest`: empty series, `validationResults` starts as
`{ success: true, discrepancies: [] }`). -/
def initState (α : Type) : LoopState α :=
  { trace := []
    wasmTimes := []
    jsTimes := []
    wasmMemory := []
    jsMemory := []
    validationResults := { success := true, discrepancies := [] } }

/-- One iteration of the trial loop of `runTest` (src/test/runner.js lines
36-71): time and memory-probe the wasm implementation, then the js
implementation, then — only when a validator was supplied and `i === 0` —
call the validator on the two outputs and store its outcome (the
discrepancy list is copied only on failure).  A validator that throws
propagates its exception; a validator that returns `undefined` makes the
subsequent `.success` access throw a `TypeError`. -/
def trialStep (p : RunParams α) (validator : Option (RValidator α)) (i : ℕ)
    (s : LoopState α) : Except String (LoopState α) :=
  let wasmResult := p.wasmRun i
  let s1 : LoopState α :=
    { s with
      trace := s.trace ++ [.wasmCall i]
      wasmTimes := s.wasmTimes ++ [p.wasmTime i]
      wasmMemory := s.wasmMemory ++
        [calculateMemoryUsage (p.wasmMemBefore i) (p.wasmMemAfter i)] }
  let jsResult := p.jsRun i
  let s2 : LoopState α :=
    { s1 with
      trace := s1.trace ++ [.jsCall i]
      jsTimes := s1.jsTimes ++ [p.jsTime i]
      jsMemory := s1.jsMemory ++
        [calculateMemoryUsage (p.jsMemBefore i) (p.jsMemAfter i)] }
  match validator, i with
  | some v, 0 =>
      let s3 : LoopState α := { s2 with trace := s2.trace ++ [.validatorCall 0 wasmResult jsResult] }
      match v wasmResult jsResult with
      | .error msg => .error msg
      | .ok none => .error "TypeError: cannot read properties of undefined"
      | .ok (some validationResult) =>
          .ok { s3 with validationResults :=
                { success := validationResult.success
                  discrepancies :=
                    if validationResult.success then s3.validationResults.discrepancies
                    else validationResult.discrepancies } }
  | _, _ => .ok s2

/-- The trial loop `for (let i = 0; i < iterations; i++)`: `r` is the number
of remaining iterations, `i` the current index. -/
def trialLoop (p : RunParams α) (validator : Option (RValidator α)) :
    ℕ → ℕ → LoopState α → Except String (LoopState α)
  | 0, _, s => .ok s
  | r + 1, i, s =>
      match trialStep p validator i s with
      | .error msg => .error msg
      | .ok s2 => trialLoop p validator r (i + 1) s2

/-- The finalisation step of `runTest` after the trial loop (src/test/runner.js
lines 73-78): compute the statistics of both timing series and
`speedup = jsStats.mean / wasmStats.mean`. -/
def buildMetrics (p : RunParams α) (s : LoopState α) : Metrics :=
  let wasmStats := calculateStats p.sqrtFn s.wasmTimes
  let jsStats := calculateStats p.sqrtFn s.jsTimes
  { algorithm := p.algorithm
    algoType := p.algoType
    size := p.size
    wasmTimes := s.wasmTimes
    jsTimes := s.jsTimes
    wasmMemory := s.wasmMemory
    jsMemory := s.jsMemory
    validationResults := s.validationResults
    wasmStats := wasmStats
    jsStats := jsStats
    speedup := jsDiv jsStats.mean wasmStats.mean }

/-- Embedding of `TestRunner.runTest` (src/test/runner.js lines 18-116):
run the trial loop, build the metrics, call the export hook
(`this.exportResults`, unprotected by any try/catch) and return the metrics
together with the emitted event trace. -/
def runTest (p : RunParams α) (iterations : ℕ) (validator : Option (RValidator α))
    (hook : Metrics → Except String Unit) : Except String (List (Event α) × Metrics) :=
  match trialLoop p validator iterations 0 (initState α) with
  | .error msg => .error msg
  | .ok s =>
      match hook (buildMetrics p s) with
      | .error msg => .error msg
      | .ok _ => .ok (s.trace, buildMetrics p s)

/-- The all-zero statistics used by the synthetic error result of
`TestRunnerWithDatabase.runTest`. -/
def zeroStats : Stats :=
  { min := .num 0, max := .num 0, mean := .num 0, median := .num 0
    stdDev := .num 0, p95 := .num 0, p99 := .num 0 }

/-- The minimal error result built by the catch branch of
`TestRunnerWithDatabase.runTest`. -/
def errorResult (algorithmName algorithmType size msg : String) : Metrics :=
  { algorithm := algorithmName
    algoType := algorithmType
    size := size
    wasmTimes := []
    jsTimes := []
    wasmMemory := []
    jsMemory := []
    validationResults :=
      { success := false, discrepancies := [.testExecutionFailed msg] }
    wasmStats := zeroStats
    jsStats := zeroStats
    speedup := .num 0 }

/-- Embedding of `TestRunnerWithDatabase.runTest` (the database-integrated
subclass): run the base `runTest` inside a try/catch; on success reject
metrics whose `speedup` is `undefined` or `NaN` (returning `null`,
modelled as `none`), re-invoke the export hook when `saveToJson` is set,
and return the metrics; on any thrown error return the synthetic error
result instead of propagating.  (The stateful `allResults` push and the
database batch save are outside this pure fragment.) -/
def dbRunTest (p : RunParams α) (iterations : ℕ) (validator : Option (RValidator α))
    (hook : Metrics → Except String Unit) (saveToJson : Bool) : Option Metrics :=
  match runTest p iterations validator hook with
  | .error msg => some (errorResult p.algorithm p.algoType p.size msg)
  | .ok (_, m) =>
      if m.speedup = .undefined ∨ isNaNb m.speedup then none
      else if saveToJson then
        match hook m with
        | .error msg => some (errorResult p.algorithm p.algoType p.size msg)
        | .ok _ => some m
      else some m

/-- Is a trace event a call to the wasm implementation? -/
def isWasmEvent : Event α → Bool
  | .wasmCall _ => true
  | _ => false

/-- Is a trace event a call to the js implementation? -/
def isJsEvent : Event α → Bool
  | .jsCall _ => true
  | _ => false

/-- Is a trace event a call to the validator? -/
def isValidatorEvent : Event α → Bool
  | .validatorCall _ _ _ => true
  | _ => false

/-- How many times the wasm implementation was invoked in a trace. -/
def wasmCallCount (tr : List (Event α)) : ℕ := (tr.filter isWasmEvent).length

/-- How many times the js implementation was invoked in a trace. -/
def jsCallCount (tr : List (Event α)) : ℕ := (tr.filter isJsEvent).length

/-- The validator invocations of a trace, in order and with their
arguments. -/
def validatorCalls (tr : List (Event α)) : List (Event α) := tr.filter isValidatorEvent

/-- The combined effect of one validator-free loop iteration on the loop
state (used to reason about iterations `i ≥ 1`). -/
def stepState (p : RunParams α) (i : ℕ) (s : LoopState α) : LoopState α :=
  { s with
    trace := s.trace ++ [.wasmCall i, .jsCall i]
    wasmTimes := s.wasmTimes ++ [p.wasmTime i]
    jsTimes := s.jsTimes ++ [p.jsTime i]
    wasmMemory := s.wasmMemory ++
      [calculateMemoryUsage (p.wasmMemBefore i) (p.wasmMemAfter i)]
    jsMemory := s.jsMemory ++
      [calculateMemoryUsage (p.jsMemBefore i) (p.jsMemAfter i)] }

/-- The loop state after iteration `0` when a validator was supplied and
returned the outcome `out`. -/
def firstStepState (p : RunParams α) (out : ValidationOutcome) : LoopState α :=
  { trace := [.wasmCall 0, .jsCall 0, .validatorCall 0 (p.wasmRun 0) (p.jsRun 0)]
    wasmTimes := [p.wasmTime 0]
    jsTimes := [p.jsTime 0]
    wasmMemory := [calculateMemoryUsage (p.wasmMemBefore 0) (p.wasmMemAfter 0)]
    jsMemory := [calculateMemoryUsage (p.jsMemBefore 0) (p.jsMemAfter 0)]
    validationResults :=
      { success := out.success
        discrepancies := if out.success then [] else out.discrepancies } }

/-- A concrete benchmark environment used to instantiate the verified
properties: both implementations return `8`, the wasm calls take `100` time
units, the js calls take `300`, no memory API is available. -/
def demoParams : RunParams ℚ :=
  { algorithm := "demo"
    algoType := "math"
    size := "small"
    wasmRun := fun _ => 8
    jsRun := fun _ => 8
    wasmTime := fun _ => 100
    jsTime := fun _ => 300
    wasmMemBefore := fun _ => .unavailable
    wasmMemAfter := fun _ => .unavailable
    jsMemBefore := fun _ => .unavailable
    jsMemAfter := fun _ => .unavailable
    sqrtFn := fun _ => .num 0 }

/-! ## Helper lemmas -/

theorem sortTimes_sorted (l : List ℚ) : (sortTimes l).Sorted (· ≤ ·) :=
  List.sorted_insertionSort _ l

theorem sortTimes_perm (l : List ℚ) : (sortTimes l).Perm l :=
  List.perm_insertionSort _ l

theorem sortTimes_length (l : List ℚ) : (sortTimes l).length = l.length :=
  (sortTimes_perm l).length_eq

theorem sortTimes_mem {l : List ℚ} {x : ℚ} : x ∈ sortTimes l ↔ x ∈ l :=
  (sortTimes_perm l).mem_iff

theorem head_le_of_sorted {l : List ℚ} (hs : l.Sorted (· ≤ ·)) {a x : ℚ}
    (hh : l.head? = some a) (hx : x ∈ l) : a ≤ x := by
  cases l with
  | nil => cases hh
  | cons b t =>
    have hab : a = b := by simpa using hh.symm
    subst hab
    rcases List.mem_cons.mp hx with h | h
    · exact h.ge
    · exact (List.sorted_cons.mp hs).1 x h

theorem le_getLast_of_sorted {l : List ℚ} (hs : l.Sorted (· ≤ ·)) {a x : ℚ}
    (hh : l.getLast? = some a) (hx : x ∈ l) : x ≤ a := by
  induction l with
  | nil => cases hh
  | cons b t ih =>
    cases t with
    | nil =>
      have hab : a = b := by simpa using hh.symm
      subst hab
      simpa using (List.mem_singleton.mp hx).le
    | cons c t2 =>
      have hh2 : (c :: t2).getLast? = some a := by
        simpa [List.getLast?_cons_cons] using hh
      have hmem : a ∈ c :: t2 := by
        have hne : (c :: t2) ≠ [] := List.cons_ne_nil c t2
        rw [List.getLast?_eq_getLast_of_ne_nil hne] at hh2
        have : a = (c :: t2).getLast hne := by simpa using hh2.symm
        rw [this]
        exact List.getLast_mem hne
      rcases List.mem_cons.mp hx with h | h
      · exact h.le.trans ((List.sorted_cons.mp hs).1 a hmem)
      · exact ih (List.sorted_cons.mp hs).2 hh2 h

theorem mean_le_of_forall_le {l : List ℚ} (hl : l ≠ []) {b : ℚ}
    (hb : ∀ x ∈ l, x ≤ b) : l.sum / l.length ≤ b := by
  have hlen : 0 < l.length := List.length_pos.mpr hl
  have hlenQ : (0 : ℚ) < l.length := by exact_mod_cast hlen
  rw [div_le_iff₀ hlenQ]
  have := List.sum_le_card_nsmul l b hb
  rw [nsmul_eq_mul] at this
  linarith

theorem le_mean_of_forall_le {l : List ℚ} (hl : l ≠ []) {a : ℚ}
    (ha : ∀ x ∈ l, a ≤ x) : a ≤ l.sum / l.length := by
  have hlen : 0 < l.length := List.length_pos.mpr hl
  have hlenQ : (0 : ℚ) < l.length := by exact_mod_cast hlen
  rw [le_div_iff₀ hlenQ]
  have := List.card_nsmul_le_sum l a ha
  rw [nsmul_eq_mul] at this
  linarith

theorem jsIdx_of_lt {l : List ℚ} {i : ℕ} (h : i < l.length) :
    jsIdx l i = .num (l.get ⟨i, h⟩) := by
  simp [jsIdx, List.getElem?_eq_getElem h]

theorem jsDiv_num_num {a b : ℚ} (hb : b ≠ 0) :
    jsDiv (.num a) (.num b) = .num (a / b) := by
  simp [jsDiv, toNum, hb]

theorem pctIdx_lt {n : ℕ} (hn : 0 < n) {p : ℚ} (hp1 : p < 1) : pctIdx n p < n := by
  have h1 : (n : ℚ) * p < (n : ℚ) :=
    mul_lt_of_lt_one_right (by exact_mod_cast hn) hp1
  have h2 : ⌊(n : ℚ) * p⌋ < (n : ℤ) := by
    rw [Int.floor_lt]
    exact_mod_cast h1
  unfold pctIdx
  omega

theorem calculateStats_min (f : JsVal → JsVal) (l : List ℚ) :
    (calculateStats f l).min = jsIdx (sortTimes l) 0 := rfl

theorem calculateStats_max (f : JsVal → JsVal) (l : List ℚ) :
    (calculateStats f l).max = jsIdx (sortTimes l) ((sortTimes l).length - 1) := rfl

theorem calculateStats_mean (f : JsVal → JsVal) (l : List ℚ) :
    (calculateStats f l).mean = jsDiv (.num l.sum) (.num (l.length : ℚ)) := rfl

theorem calculateStats_median (f : JsVal → JsVal) (l : List ℚ) :
    (calculateStats f l).median = jsIdx (sortTimes l) ((sortTimes l).length / 2) := rfl

theorem calculateStats_p95 (f : JsVal → JsVal) (l : List ℚ) :
    (calculateStats f l).p95 = jsIdx (sortTimes l) (pctIdx (sortTimes l).length (95 / 100)) := rfl

theorem calculateStats_p99 (f : JsVal → JsVal) (l : List ℚ) :
    (calculateStats f l).p99 = jsIdx (sortTimes l) (pctIdx (sortTimes l).length (99 / 100)) := rfl

/-! ## Claim theorems -/

theorem head?_get_zero {l : List ℚ} (h0 : 0 < l.length) :
    l.head? = some (l.get ⟨0, h0⟩) := by
  cases l with
  | nil => simp at h0
  | cons a t => rfl

/-- C2: for every non-empty sequence `S` of samples, the summary returned by
`calculateStats` has numeric `min`, `max`, `mean`, `median` fields with
`min ≤ mean ≤ max` and `min ≤ median ≤ max`, where `min` and `max` are the
first and last elements of the ascending-sorted copy of `S`. -/
theorem calculateStats_ordered (f : JsVal → JsVal) (S : List ℚ) (hS : S ≠ []) :
    ∃ mn mx me md : ℚ,
      (calculateStats f S).min = .num mn ∧
      (calculateStats f S).max = .num mx ∧
      (calculateStats f S).mean = .num me ∧
      (calculateStats f S).median = .num md ∧
      (sortTimes S).head? = some mn ∧
      (sortTimes S).getLast? = some mx ∧
      mn ≤ me ∧ me ≤ mx ∧ mn ≤ md ∧ md ≤ mx := by
  have hlen : 0 < S.length := List.length_pos.mpr hS
  have hLlen : 0 < (sortTimes S).length := by rw [sortTimes_length]; exact hlen
  have hLne : sortTimes S ≠ [] := List.ne_nil_of_length_pos hLlen
  have h0 : 0 < (sortTimes S).length := hLlen
  have hlast : (sortTimes S).length - 1 < (sortTimes S).length := by omega
  have hmed : (sortTimes S).length / 2 < (sortTimes S).length :=
    Nat.div_lt_self hLlen (by norm_num)
  refine ⟨(sortTimes S).get ⟨0, h0⟩, (sortTimes S).get ⟨(sortTimes S).length - 1, hlast⟩,
    S.sum / S.length, (sortTimes S).get ⟨(sortTimes S).length / 2, hmed⟩,
    ?_, ?_, ?_, ?_, ?_, ?_, ?_, ?_, ?_, ?_⟩
  · rw [calculateStats_min, jsIdx_of_lt h0]
  · rw [calculateStats_max, jsIdx_of_lt hlast]
  · rw [calculateStats_mean, jsDiv_num_num (by exact_mod_cast hlen.ne')]
  · rw [calculateStats_median, jsIdx_of_lt hmed]
  · exact head?_get_zero h0
  · rw [List.getLast?_eq_getElem? (sortTimes S)]
    simp [List.getElem?_eq_getElem hlast]
  · exact le_mean_of_forall_le hS fun x hx =>
      head_le_of_sorted (sortTimes_sorted S)
        (head?_get_zero h0)
        (sortTimes_mem.mpr hx)
  · exact mean_le_of_forall_le hS fun x hx =>
      le_getLast_of_sorted (sortTimes_sorted S)
        (by rw [List.getLast?_eq_getElem? (sortTimes S)]; simp [List.getElem?_eq_getElem hlast])
        (sortTimes_mem.mpr hx)
  · exact head_le_of_sorted (sortTimes_sorted S)
      (head?_get_zero h0)
      (List.get_mem _ _ _)
  · exact le_getLast_of_sorted (sortTimes_sorted S)
      (by rw [List.getLast?_eq_getElem? (sortTimes S)]; simp [List.getElem?_eq_getElem hlast])
      (List.get_mem _ _ _)

/-- C2 witness: the property instantiated at the concrete series
`[3, 1, 2]`. -/
theorem calculateStats_ordered_witness :
    ∃ mn mx me md : ℚ,
      (calculateStats (fun _ => .num 0) [3, 1, 2]).min = .num mn ∧
      (calculateStats (fun _ => .num 0) [3, 1, 2]).max = .num mx ∧
      (calculateStats (fun _ => .num 0) [3, 1, 2]).mean = .num me ∧
      (calculateStats (fun _ => .num 0) [3, 1, 2]).median = .num md ∧
      (sortTimes [3, 1, 2]).head? = some mn ∧
      (sortTimes [3, 1, 2]).getLast? = some mx ∧
      mn ≤ me ∧ me ≤ mx ∧ mn ≤ md ∧ md ≤ mx :=
  calculateStats_ordered (fun _ => .num 0) [3, 1, 2] (by decide)

/-- C3: for every non-empty sequence `S` of length `N`, the `median` field of
`calculateStats S` is the element at index `⌊N/2⌋` of the ascending-sorted
copy of `S` (stated against any sorted permutation `L` of `S`); for even `N`
this is the upper-middle element, not the average of the two middle
elements. -/
theorem calculateStats_median_index (f : JsVal → JsVal) (S : List ℚ) (hS : S ≠ [])
    (L : List ℚ) (hperm : S.Perm L) (hsorted : L.Sorted (· ≤ ·)) :
    ∃ h : S.length / 2 < L.length,
      (calculateStats f S).median = .num (L.get ⟨S.length / 2, h⟩) := by
  have hL : L = sortTimes S :=
    List.eq_of_perm_of_sorted (hperm.symm.trans (sortTimes_perm S).symm) hsorted
      (sortTimes_sorted S)
  subst hL
  have hlen : 0 < S.length := List.length_pos.mpr hS
  have hmed : S.length / 2 < (sortTimes S).length := by
    rw [sortTimes_length]
    exact Nat.div_lt_self hlen (by norm_num)
  refine ⟨hmed, ?_⟩
  rw [calculateStats_median,
    show (sortTimes S).length / 2 = S.length / 2 from by rw [sortTimes_length]]
  exact jsIdx_of_lt hmed

/-- C3 witness: `S = [2, 1, 4, 3]` has sorted copy `[1, 2, 3, 4]` and
median `S[4 / 2] = 3` — the upper-middle element, not `2.5`. -/
theorem calculateStats_median_index_witness :
    (∃ h : ([2, 1, 4, 3] : List ℚ).length / 2 < ([1, 2, 3, 4] : List ℚ).length,
      (calculateStats (fun _ => .num 0) [2, 1, 4, 3]).median =
        .num (([1, 2, 3, 4] : List ℚ).get ⟨([2, 1, 4, 3] : List ℚ).length / 2, h⟩)) ∧
    (calculateStats (fun _ => .num 0) [2, 1, 4, 3]).median = .num 3 ∧
    (3 : ℚ) ≠ 5 / 2 :=
  ⟨calculateStats_median_index (fun _ => .num 0) [2, 1, 4, 3] (by decide)
      [1, 2, 3, 4] (by decide) (by decide),
    by decide, by norm_num⟩

/-- C10: for every non-empty sequence `S` of length `N ≥ 1`, the indices
used by `calculateStats` — `⌊N/2⌋` for the median, `⌊N * 0.95⌋` for p95 and
`⌊N * 0.99⌋` for p99 — are all strictly below `N`, so every access into the
sorted copy is in bounds and all seven returned fields are defined (given
that the square root of a number is a number). -/
theorem calculateStats_defined (f : JsVal → JsVal) (hf : ∀ v, f v ≠ .undefined)
    (S : List ℚ) (hS : S ≠ []) :
    S.length / 2 < S.length ∧
    pctIdx S.length (95 / 100) < S.length ∧
    pctIdx S.length (99 / 100) < S.length ∧
    (calculateStats f S).min ≠ .undefined ∧
    (calculateStats f S).max ≠ .undefined ∧
    (calculateStats f S).mean ≠ .undefined ∧
    (calculateStats f S).median ≠ .undefined ∧
    (calculateStats f S).stdDev ≠ .undefined ∧
    (calculateStats f S).p95 ≠ .undefined ∧
    (calculateStats f S).p99 ≠ .undefined := by
  have hlen : 0 < S.length := List.length_pos.mpr hS
  have hLlen : 0 < (sortTimes S).length := by rw [sortTimes_length]; exact hlen
  have h0 : (0 : ℕ) < (sortTimes S).length := hLlen
  have hlast : (sortTimes S).length - 1 < (sortTimes S).length := by omega
  have hmed : (sortTimes S).length / 2 < (sortTimes S).length :=
    Nat.div_lt_self hLlen (by norm_num)
  have h95 : pctIdx (sortTimes S).length (95 / 100) < (sortTimes S).length :=
    pctIdx_lt hLlen (by norm_num)
  have h99 : pctIdx (sortTimes S).length (99 / 100) < (sortTimes S).length :=
    pctIdx_lt hLlen (by norm_num)
  refine ⟨Nat.div_lt_self hlen (by norm_num), pctIdx_lt hlen (by norm_num),
    pctIdx_lt hlen (by norm_num), ?_, ?_, ?_, ?_, ?_, ?_, ?_⟩
  · rw [calculateStats_min, jsIdx_of_lt h0]; simp
  · rw [calculateStats_max, jsIdx_of_lt hlast]; simp
  · rw [calculateStats_mean, jsDiv_num_num (by exact_mod_cast hlen.ne')]; simp
  · rw [calculateStats_median, jsIdx_of_lt hmed]; simp
  · exact hf _
  · rw [calculateStats_p95, jsIdx_of_lt h95]; simp
  · rw [calculateStats_p99, jsIdx_of_lt h99]; simp

/-- C10 witness: the property instantiated at `S = [5, 1, 4, 2, 3]`. -/
theorem calculateStats_defined_witness :
    ([5, 1, 4, 2, 3] : List ℚ).length / 2 < ([5, 1, 4, 2, 3] : List ℚ).length ∧
    pctIdx ([5, 1, 4, 2, 3] : List ℚ).length (95 / 100) < ([5, 1, 4, 2, 3] : List ℚ).length ∧
    pctIdx ([5, 1, 4, 2, 3] : List ℚ).length (99 / 100) < ([5, 1, 4, 2, 3] : List ℚ).length ∧
    (calculateStats (fun _ => .num 0) [5, 1, 4, 2, 3]).min ≠ .undefined ∧
    (calculateStats (fun _ => .num 0) [5, 1, 4, 2, 3]).max ≠ .undefined ∧
    (calculateStats (fun _ => .num 0) [5, 1, 4, 2, 3]).mean ≠ .undefined ∧
    (calculateStats (fun _ => .num 0) [5, 1, 4, 2, 3]).median ≠ .undefined ∧
    (calculateStats (fun _ => .num 0) [5, 1, 4, 2, 3]).stdDev ≠ .undefined ∧
    (calculateStats (fun _ => .num 0) [5, 1, 4, 2, 3]).p95 ≠ .undefined ∧
    (calculateStats (fun _ => .num 0) [5, 1, 4, 2, 3]).p99 ≠ .undefined :=
  calculateStats_defined (fun _ => .num 0) (fun v h => JsVal.noConfusion h) [5, 1, 4, 2, 3] (by decide)

/-- C9: `calculateMemoryUsage` returns the unavailable sentinel whenever
either snapshot is unavailable (never substituting zero), and otherwise the
field-by-field differences `after.x - before.x` for heapUsed, heapTotal,
external and rss. -/
theorem calculateMemoryUsage_spec :
    (∀ a, calculateMemoryUsage .unavailable a = .unavailable) ∧
    (∀ b, calculateMemoryUsage b .unavailable = .unavailable) ∧
    (∀ h1 t1 e1 r1 h2 t2 e2 r2 : ℚ,
      calculateMemoryUsage (.available h1 t1 e1 r1) (.available h2 t2 e2 r2) =
        .delta (h2 - h1) (t2 - t1) (e2 - e1) (r2 - r1)) := by
  refine ⟨fun a => ?_, fun b => ?_, fun h1 t1 e1 r1 h2 t2 e2 r2 => rfl⟩
  · cases a <;> rfl
  · cases b <;> rfl

/-- C9 witness: the three cases at concrete snapshots. -/
theorem calculateMemoryUsage_spec_witness :
    calculateMemoryUsage .unavailable (.available 1 2 3 4) = .unavailable ∧
    calculateMemoryUsage (.available 1 2 3 4) .unavailable = .unavailable ∧
    calculateMemoryUsage (.available 1 2 3 4) (.available 5 7 9 11) =
      .delta (5 - 1) (7 - 2) (9 - 3) (11 - 4) :=
  ⟨calculateMemoryUsage_spec.1 _, calculateMemoryUsage_spec.2.1 _,
    calculateMemoryUsage_spec.2.2 1 2 3 4 5 7 9 11⟩

/-- C6 (the claim fails on the code): `runTest` invoked with `iterations = 0`
is not rejected — the trial loop runs zero times, `calculateStats` is called
on the empty series, and a result is returned whose timing series are empty,
whose mean is `NaN` (`0 / 0`), whose min is `undefined` (out-of-bounds
access) and whose speedup is `NaN`. -/
theorem runTest_zero_iterations_not_rejected {α : Type} (p : RunParams α) :
    ∃ tr m, runTest p 0 none (fun _ => .ok ()) = .ok (tr, m) ∧
      m.wasmTimes = [] ∧ m.jsTimes = [] ∧
      m.wasmStats.mean = .nan ∧ m.wasmStats.min = .undefined ∧
      m.speedup = .nan := by
  exact ⟨_, _, rfl, rfl, rfl, rfl, rfl, rfl⟩

/-- C7 (the claim fails on the code): when the export hook throws after the
trial loop has completed, `runTest` propagates the exception instead of
returning the fully built metrics — the in-memory result is lost. -/
theorem runTest_export_hook_throw {α : Type} (p : RunParams α) :
    runTest p 1 none (fun _ => .error "database unreachable") =
      .error "database unreachable" := rfl

theorem trialStep_pos (p : RunParams α) (vd : Option (RValidator α)) (j : ℕ)
    (s : LoopState α) :
    trialStep p vd (j + 1) s = .ok (stepState p (j + 1) s) := by
  cases vd <;> simp [trialStep, stepState, List.append_assoc]

theorem wasmCallCount_append (tr tr2 : List (Event α)) :
    wasmCallCount (tr ++ tr2) = wasmCallCount tr + wasmCallCount tr2 := by
  simp [wasmCallCount, List.filter_append]

theorem jsCallCount_append (tr tr2 : List (Event α)) :
    jsCallCount (tr ++ tr2) = jsCallCount tr + jsCallCount tr2 := by
  simp [jsCallCount, List.filter_append]

theorem validatorCalls_append (tr tr2 : List (Event α)) :
    validatorCalls (tr ++ tr2) = validatorCalls tr ++ validatorCalls tr2 := by
  simp [validatorCalls, List.filter_append]

/-- Iterations `i ≥ 1` never call the validator and never throw: the loop
completes, adding one wasm call, one js call and one entry in each timing
series per remaining iteration, and adding no validator call. -/
theorem trialLoop_pos (p : RunParams α) (vd : Option (RValidator α)) :
    ∀ (r i : ℕ), i ≠ 0 → ∀ (s : LoopState α),
      ∃ s2, trialLoop p vd r i s = .ok s2 ∧
        wasmCallCount s2.trace = wasmCallCount s.trace + r ∧
        jsCallCount s2.trace = jsCallCount s.trace + r ∧
        validatorCalls s2.trace = validatorCalls s.trace ∧
        s2.wasmTimes.length = s.wasmTimes.length + r ∧
        s2.jsTimes.length = s.jsTimes.length + r := by
  intro r
  induction r with
  | zero => intro i hi s; exact ⟨s, rfl, rfl, rfl, rfl, rfl, rfl⟩
  | succ n ih =>
    intro i hi s
    obtain ⟨j, rfl⟩ := Nat.exists_eq_succ_of_ne_zero hi
    obtain ⟨s2, h2, hw, hj, hv, hwt, hjt⟩ := ih (j + 2) (by omega) (stepState p (j + 1) s)
    refine ⟨s2, ?_, ?_, ?_, ?_, ?_, ?_⟩
    · rw [show trialLoop p vd (n + 1) (j + 1) s =
        trialLoop p vd n (j + 2) (stepState p (j + 1) s) from by
          simp [trialLoop, trialStep_pos]]
      exact h2
    · rw [hw]; simp [stepState, wasmCallCount_append, wasmCallCount, isWasmEvent]
      omega
    · rw [hj]; simp [stepState, jsCallCount_append, jsCallCount, isJsEvent]
      omega
    · rw [hv]; simp [stepState, validatorCalls_append, validatorCalls, isValidatorEvent]
    · rw [hwt]; simp [stepState]; omega
    · rw [hjt]; simp [stepState]; omega

theorem trialStep_zero_validator (p : RunParams α) (v : RValidator α)
    (out : ValidationOutcome)
    (hv : v (p.wasmRun 0) (p.jsRun 0) = .ok (some out)) :
    trialStep p (some v) 0 (initState α) = .ok (firstStepState p out) := by
  simp [trialStep, initState, firstStepState, hv]

/-- C1: for every `iterations = N ≥ 1`, `runTest` invokes the wasm
implementation exactly `N` times and the js implementation exactly `N`
times, records exactly `N` entries in each of `wasmTimes` and `jsTimes`,
and — when a validator is supplied (and behaves as a function returning an
outcome on the first trial's outputs) — calls the validator exactly once,
with the outputs of trial `i = 0` only. -/
theorem runTest_trial_counts (p : RunParams α) (N : ℕ) (hN : 1 ≤ N)
    (v : RValidator α) (out : ValidationOutcome)
    (hv : v (p.wasmRun 0) (p.jsRun 0) = .ok (some out)) :
    ∃ tr m, runTest p N (some v) (fun _ => .ok ()) = .ok (tr, m) ∧
      wasmCallCount tr = N ∧ jsCallCount tr = N ∧
      m.wasmTimes.length = N ∧ m.jsTimes.length = N ∧
      validatorCalls tr = [.validatorCall 0 (p.wasmRun 0) (p.jsRun 0)] := by
  obtain ⟨n, rfl⟩ : ∃ n, N = n + 1 := ⟨N - 1, by omega⟩
  obtain ⟨s2, h2, hw, hj, hvc, hwt, hjt⟩ :=
    trialLoop_pos p (some v) n 1 (by omega) (firstStepState p out)
  have hloop : trialLoop p (some v) (n + 1) 0 (initState α) = .ok s2 := by
    rw [show trialLoop p (some v) (n + 1) 0 (initState α) =
      trialLoop p (some v) n 1 (firstStepState p out) from by
        simp [trialLoop, trialStep_zero_validator p v out hv]]
    exact h2
  refine ⟨s2.trace, buildMetrics p s2, ?_, ?_, ?_, ?_, ?_, ?_⟩
  · simp [runTest, hloop]
  · rw [hw]; simp [firstStepState, wasmCallCount, isWasmEvent]; omega
  · rw [hj]; simp [firstStepState, jsCallCount, isJsEvent]; omega
  · show (buildMetrics p s2).wasmTimes.length = n + 1
    simp [buildMetrics]
    rw [hwt]; simp [firstStepState]; omega
  · show (buildMetrics p s2).jsTimes.length = n + 1
    simp [buildMetrics]
    rw [hjt]; simp [firstStepState]; omega
  · rw [hvc]; simp [firstStepState, validatorCalls, isValidatorEvent]

/-- C1 witness: three trials in the concrete demo environment with an
always-succeeding validator. -/
theorem runTest_trial_counts_witness :
    ∃ tr m, runTest demoParams 3
        (some (fun _ _ => .ok (some { success := true, discrepancies := [] })))
        (fun _ => .ok ()) = .ok (tr, m) ∧
      wasmCallCount tr = 3 ∧ jsCallCount tr = 3 ∧
      m.wasmTimes.length = 3 ∧ m.jsTimes.length = 3 ∧
      validatorCalls tr =
        [.validatorCall 0 (demoParams.wasmRun 0) (demoParams.jsRun 0)] :=
  runTest_trial_counts demoParams 3 (by omega)
    (fun _ _ => .ok (some { success := true, discrepancies := [] }))
    { success := true, discrepancies := [] } rfl

theorem runTest_ok_inv {α : Type} {p : RunParams α} {N : ℕ}
    {vd : Option (RValidator α)} {hook : Metrics → Except String Unit}
    {tr : List (Event α)} {m : Metrics}
    (h : runTest p N vd hook = .ok (tr, m)) :
    ∃ s, trialLoop p vd N 0 (initState α) = .ok s ∧ tr = s.trace ∧
      m = buildMetrics p s := by
  unfold runTest at h
  cases hloop : trialLoop p vd N 0 (initState α) with
  | error msg => rw [hloop] at h; cases h
  | ok s =>
    simp only [hloop] at h
    cases hhook : hook (buildMetrics p s) with
    | error msg => simp [hhook] at h
    | ok u =>
      simp only [hhook] at h
      obtain ⟨h1, h2⟩ := Prod.mk.injEq .. ▸ (Except.ok.injEq .. ▸ h)
      exact ⟨s, rfl, h1.symm, h2.symm⟩

/-- C4: any metrics record returned by `runTest` has
`speedup = jsStats.mean / wasmStats.mean`, the two means being the sums of
the recorded timing series divided by their lengths; when the wasm mean is a
positive number `a` and the js mean a number `b`, `speedup` is exactly the
number `b / a`, and `speedup > 1` holds exactly when the wasm (native) mean
is smaller — the native path was faster. -/
theorem runTest_speedup_ratio {α : Type} (p : RunParams α) (N : ℕ)
    (vd : Option (RValidator α)) (hook : Metrics → Except String Unit)
    (tr : List (Event α)) (m : Metrics)
    (h : runTest p N vd hook = .ok (tr, m)) :
    m.speedup = jsDiv m.jsStats.mean m.wasmStats.mean ∧
    m.jsStats.mean = jsDiv (.num m.jsTimes.sum) (.num (m.jsTimes.length : ℚ)) ∧
    m.wasmStats.mean = jsDiv (.num m.wasmTimes.sum) (.num (m.wasmTimes.length : ℚ)) ∧
    ∀ a b : ℚ, m.wasmStats.mean = .num a → m.jsStats.mean = .num b → 0 < a →
      m.speedup = .num (b / a) ∧ (jsLtB (.num 1) m.speedup = true ↔ a < b) := by
  obtain ⟨s, hloop, htr, hm⟩ := runTest_ok_inv h
  subst hm
  refine ⟨rfl, rfl, rfl, ?_⟩
  intro a b hwa hjb ha
  have hs : (buildMetrics p s).speedup = jsDiv (.num b) (.num a) := by
    show jsDiv (buildMetrics p s).jsStats.mean (buildMetrics p s).wasmStats.mean =
      jsDiv (.num b) (.num a)
    rw [hwa, hjb]
  rw [hs, jsDiv_num_num ha.ne']
  constructor
  · rfl
  · simp [jsLtB, toNum]
    exact one_lt_div ha

/-- C4 witness: two trials with constant native time `100` and managed time
`300` yield `speedup = 3`, and `speedup > 1` under the JavaScript
comparison. -/
theorem runTest_speedup_ratio_witness :
    ∃ tr m, runTest demoParams 2 none (fun _ => .ok ()) = .ok (tr, m) ∧
      m.speedup = jsDiv m.jsStats.mean m.wasmStats.mean ∧
      m.speedup = .num 3 ∧ jsLtB (.num 1) m.speedup = true := by
  refine ⟨_, _, rfl, ?_, ?_, ?_⟩
  · exact (runTest_speedup_ratio demoParams 2 none (fun _ => .ok ()) _ _ rfl).1
  · with_unfolding_all rfl
  · with_unfolding_all rfl

theorem trialStep_zero_throw (p : RunParams α) (v : RValidator α)
    (hv : (∃ msg, v (p.wasmRun 0) (p.jsRun 0) = .error msg) ∨
      v (p.wasmRun 0) (p.jsRun 0) = .ok none) :
    ∃ e, trialStep p (some v) 0 (initState α) = .error e := by
  rcases hv with ⟨msg, hmsg⟩ | hnone
  · exact ⟨msg, by simp [trialStep, hmsg]⟩
  · exact ⟨"TypeError: cannot read properties of undefined", by simp [trialStep, hnone]⟩

theorem runTest_error_of_first_step (p : RunParams α) (n : ℕ) (v : RValidator α)
    (hook : Metrics → Except String Unit) (e : String)
    (hstep : trialStep p (some v) 0 (initState α) = .error e) :
    runTest p (n + 1) (some v) hook = .error e := by
  have hloop : trialLoop p (some v) (n + 1) 0 (initState α) = .error e := by
    simp [trialLoop, hstep]
  simp [runTest, hloop]

/-- C8: if the supplied validator throws on the first trial's outputs or
returns `undefined`, `TestRunnerWithDatabase.runTest` still completes,
returning a result record whose `validationResults.success` is `false`
with a non-empty discrepancy list — the run is not aborted by the
exception. -/
theorem dbRunTest_validator_failure (p : RunParams α) (N : ℕ) (hN : 1 ≤ N)
    (v : RValidator α) (hook : Metrics → Except String Unit) (sj : Bool)
    (hv : (∃ msg, v (p.wasmRun 0) (p.jsRun 0) = .error msg) ∨
      v (p.wasmRun 0) (p.jsRun 0) = .ok none) :
    ∃ m, dbRunTest p N (some v) hook sj = some m ∧
      m.validationResults.success = false ∧
      m.validationResults.discrepancies ≠ [] := by
  obtain ⟨n, rfl⟩ : ∃ n, N = n + 1 := ⟨N - 1, by omega⟩
  obtain ⟨e, hstep⟩ := trialStep_zero_throw p v hv
  have hrun := runTest_error_of_first_step p n v hook e hstep
  refine ⟨errorResult p.algorithm p.algoType p.size e, ?_, rfl, by simp [errorResult]⟩
  simp [dbRunTest, hrun]

/-- C8 witness: a validator that returns `undefined` in the concrete demo
environment. -/
theorem dbRunTest_validator_failure_witness :
    ∃ m, dbRunTest demoParams 1 (some fun _ _ => .ok none) (fun _ => .ok ()) true = some m ∧
      m.validationResults.success = false ∧
      m.validationResults.discrepancies ≠ [] :=
  dbRunTest_validator_failure demoParams 1 (by omega) (fun _ _ => .ok none)
    (fun _ => .ok ()) true (Or.inr rfl)

theorem runValidator_spec (tol : ℚ) (w j : JsRes) :
    (runValidator tol w j).discrepancies = (fullDiscrepancies tol w j).take 3 ∧
    ((runValidator tol w j).success = true ↔ fullDiscrepancies tol w j = []) ∧
    (runValidator tol w j).discrepancies.length ≤ 3 := by
  unfold runValidator fullDiscrepancies
  split_ifs with hfalsy
  · exact ⟨rfl, by simp, by simp⟩
  · cases w with
    | nullish => exact ⟨rfl, by simp, by simp⟩
    | nonArray t => exact ⟨rfl, by simp, by simp⟩
    | arr ws =>
      cases j with
      | nullish => exact ⟨rfl, by simp, by simp⟩
      | nonArray t => exact ⟨rfl, by simp, by simp⟩
      | arr js =>
        by_cases hlen : ws.length ≠ js.length
        · simp only [if_pos hlen]
          exact ⟨by simp, by simp, by simp⟩
        · simp only [if_neg hlen]
          refine ⟨trivial, ?_, ?_⟩
          · simp [beq_iff_eq, List.length_eq_zero]
          · simp

/-- C5 counterexample: on a pair of length-4 arrays producing four
discrepancies (every wasm element is NaN), the fft validator returns only
the first 3 of them — not the first 5 as the claim states. -/
theorem fftValidator_not_truncated_to_five :
    (fftValidator (JsRes.arr [.nan, .nan, .nan, .nan])
        (JsRes.arr [.num 0, .num 0, .num 0, .num 0])).discrepancies ≠
      (fullDiscrepancies (1 / 100) (JsRes.arr [.nan, .nan, .nan, .nan])
        (JsRes.arr [.num 0, .num 0, .num 0, .num 0])).take 5 := by decide

/-- C5 (amended): for every pair of outputs, the fft and gradient validators
return an outcome whose discrepancy list is the untruncated list truncated
to the first 3 entries (hence at most 3), and whose `success` field is true
exactly when the untruncated discrepancy list is empty. -/
theorem validators_cap_at_three (w j : JsRes) :
    ((fftValidator w j).discrepancies = (fullDiscrepancies (1 / 100) w j).take 3 ∧
      ((fftValidator w j).success = true ↔ fullDiscrepancies (1 / 100) w j = []) ∧
      (fftValidator w j).discrepancies.length ≤ 3) ∧
    ((gradientValidator w j).discrepancies = (fullDiscrepancies (15 / 100) w j).take 3 ∧
      ((gradientValidator w j).success = true ↔ fullDiscrepancies (15 / 100) w j = []) ∧
      (gradientValidator w j).discrepancies.length ≤ 3) :=
  ⟨runValidator_spec (1 / 100) w j, runValidator_spec (15 / 100) w j⟩

/-- C5 (amended) witness: the capped behaviour at the concrete
four-discrepancy input. -/
theorem validators_cap_at_three_witness :
    ((fftValidator (JsRes.arr [.nan, .nan, .nan, .nan])
        (JsRes.arr [.num 0, .num 0, .num 0, .num 0])).discrepancies =
      (fullDiscrepancies (1 / 100) (JsRes.arr [.nan, .nan, .nan, .nan])
        (JsRes.arr [.num 0, .num 0, .num 0, .num 0])).take 3 ∧
      ((fftValidator (JsRes.arr [.nan, .nan, .nan, .nan])
        (JsRes.arr [.num 0, .num 0, .num 0, .num 0])).success = true ↔
        fullDiscrepancies (1 / 100) (JsRes.arr [.nan, .nan, .nan, .nan])
          (JsRes.arr [.num 0, .num 0, .num 0, .num 0]) = []) ∧
      (fftValidator (JsRes.arr [.nan, .nan, .nan, .nan])
        (JsRes.arr [.num 0, .num 0, .num 0, .num 0])).discrepancies.length ≤ 3) ∧
    ((gradientValidator (JsRes.arr [.nan, .nan, .nan, .nan])
        (JsRes.arr [.num 0, .num 0, .num 0, .num 0])).discrepancies =
      (fullDiscrepancies (15 / 100) (JsRes.arr [.nan, .nan, .nan, .nan])
        (JsRes.arr [.num 0, .num 0, .num 0, .num 0])).take 3 ∧
      ((gradientValidator (JsRes.arr [.nan, .nan, .nan, .nan])
        (JsRes.arr [.num 0, .num 0, .num 0, .num 0])).success = true ↔
        fullDiscrepancies (15 / 100) (JsRes.arr [.nan, .nan, .nan, .nan])
          (JsRes.arr [.num 0, .num 0, .num 0, .num 0]) = []) ∧
      (gradientValidator (JsRes.arr [.nan, .nan, .nan, .nan])
        (JsRes.arr [.num 0, .num 0, .num 0, .num 0])).discrepancies.length ≤ 3) :=
  validators_cap_at_three (JsRes.arr [.nan, .nan, .nan, .nan])
    (JsRes.arr [.num 0, .num 0, .num 0, .num 0])
